import Mathlib

/-!
Verification of the streaming/debounce core of `rtsp_qrcode_scanner_v1.0.py`.

The Python source is shallowly embedded: every stateful operation becomes a
pure Lean function that takes the pre-state (and the inputs the Python code
reads from its environment, such as the current clock value or the bytes
available on the ffmpeg pipe) and returns the post-state together with its
observable effects (appended CSV rows, published frames, a trace of events).
Times are modelled as rationals, byte streams as lists of naturals, and the
CSV file as an optional list of rows (absent file = `none`).
-/

set_option maxHeartbeats 1000000

/-! ## Configuration constants (lines 34-39 of the source) -/

def SAVE_COOLDOWN_SECONDS : ℚ := 5

/-! ## `ensure_csv_header` (lines 45-49)

The file system is modelled as `Option (List (List String))`: `none` when the
CSV file does not exist, `some rows` when it exists with those rows (each row a
list of fields). -/

def csvHeader : List String := ["timestamp_iso", "qr_text"]

/-- `ensure_csv_header(path)`: if the file does not exist, create it with the
single header row; otherwise leave it untouched (lines 45-49). -/
def ensure_csv_header (fs : Option (List (List String))) : Option (List (List String)) :=
  match fs with
  | none => some [csvHeader]
  | some rows => some rows

/-! ## `CaptureSaver` (lines 52-87) -/

/-- In-memory debounce state of `CaptureSaver`: `last_saved_text` starts as
`None`, `last_saved_time` as `0.0` (lines 58-59). -/
structure SaverState where
  last_saved_text : Option String
  last_saved_time : ℚ
deriving DecidableEq, Repr

/-- `CaptureSaver.__init__` (lines 55-61): sets the debounce fields and runs
`ensure_csv_header` on the CSV file. Returns the initial in-memory state and
the file-system state after construction. -/
def captureSaverInit (fs : Option (List (List String))) :
    SaverState × Option (List (List String)) :=
  (⟨none, 0⟩, ensure_csv_header fs)

/-- `CaptureSaver.maybe_save` (lines 63-87), successful-append path.
Inputs beyond the payload: `now` is the value of `time.time()` at line 67 and
`iso` the UTC timestamp string computed at line 80.  Returns the Python return
value, the post-state, and the list of rows appended to the CSV file. -/
def maybe_save (cooldown : ℚ) (s : SaverState) (qr_text : String) (now : ℚ)
    (iso : String) : Bool × SaverState × List (List String) :=
  if qr_text = "" then (false, s, [])
  else
    let should_save : Bool :=
      if s.last_saved_text = none then true
      else if ¬ (some qr_text = s.last_saved_text) then true
      else if cooldown ≤ now - s.last_saved_time then true
      else false
    if should_save then (true, ⟨some qr_text, now⟩, [[iso, qr_text]])
    else (false, s, [])

/-- `CaptureSaver.maybe_save` with a fallible durable append: `appendOk` is
false when the `open`/`writerow` at lines 81-82 raises an I/O error.  In that
case the assignments at lines 83-84 are skipped and the exception propagates
(the `with self.lock` block releases the lock and re-raises), modelled as
`Except.error ()`. -/
def maybe_save_fallible (cooldown : ℚ) (s : SaverState) (qr_text : String)
    (now : ℚ) (iso : String) (appendOk : Bool) :
    Except Unit Bool × SaverState × List (List String) :=
  if qr_text = "" then (Except.ok false, s, [])
  else
    let should_save : Bool :=
      if s.last_saved_text = none then true
      else if ¬ (some qr_text = s.last_saved_text) then true
      else if cooldown ≤ now - s.last_saved_time then true
      else false
    if should_save then
      if appendOk then (Except.ok true, ⟨some qr_text, now⟩, [[iso, qr_text]])
      else (Except.error (), s, [])
    else (Except.ok false, s, [])

/-- Spec-side decision predicate, transcribed from the claim's words: save
exactly when the payload is non-empty and (no payload has ever been saved, or
the payload differs from the last one, or at least 5 seconds have passed since
the last save). -/
def saveDecision (s : SaverState) (qr_text : String) (now : ℚ) : Bool :=
  !(decide (qr_text = "")) &&
    (s.last_saved_text.isNone || !(decide (s.last_saved_text = some qr_text)) ||
      decide (5 ≤ now - s.last_saved_time))

/-! ## Frame Channel (`queue.Queue(maxsize=1)` used as a single slot)

Producer side (lines 123-127): if the queue is non-empty the occupant is
removed and discarded via `get_nowait` (with `queue.Empty` swallowed), then the
new frame is stored with `put_nowait`.  Consumer side (lines 274-277):
`get_nowait` with `queue.Empty` caught, i.e. a non-blocking take.  The slot is
modelled as `Option α`. -/

/-- One publish step: the occupant, if any, is discarded and replaced. -/
def publish {α : Type} (slot : Option α) (f : α) : Option α :=
  match slot with
  | some _ => some f
  | none => some f

/-- Non-blocking take: returns the taken frame (or `none`) and the new slot. -/
def try_take {α : Type} (slot : Option α) : Option α × Option α :=
  (slot, none)

/-- A sequence of publishes with no interleaved take. -/
def publishAll {α : Type} (slot : Option α) (fs : List α) : Option α :=
  fs.foldl publish slot

/-! ## Log-file reachability

The only writes this program ever performs on the CSV file are the header
creation in `ensure_csv_header` and the single-row appends in
`maybe_save` (line 82). -/

/-- CSV file contents producible by this program's own writes. -/
inductive ReachableLog : List (List String) → Prop
  | created : ReachableLog [csvHeader]
  | appended (iso txt : String) {c : List (List String)} :
      ReachableLog c → ReachableLog (c ++ [[iso, txt]])

/-! ## `FFmpegReader.run` (lines 102-154)

The reader thread is embedded as a trace-producing function.  A `Frame` on the
wire is the raw chunk of bytes read from the ffmpeg pipe (the `numpy` copy and
reshape at line 121 only restructure those same bytes).  `stdout.read(n)` on a
blocking pipe returns `min n remaining` bytes, so the loop guard at lines
117-119 (`if not raw or len(raw) < frame_size: break`) continues exactly when
the remaining stream holds at least `frame_size` bytes and `frame_size > 0`.

Each call of `self.stop_event.is_set()` is modelled by a boolean: `stopA` for
the outer `while` guard (line 105), `stopB i` for the i-th inner guard
(line 116), `stopC` for the pre-sleep check (line 135). -/

/-- Trace events emitted by the reader thread. -/
inductive Ev where
  | launch : Ev
  | publish (raw : List ℕ) : Ev
  | kill : Ev
  | sleep (seconds : ℚ) : Ev
deriving DecidableEq, Repr

/-- `frame_size = self.width * self.height * 3` (line 103). -/
def frame_size (w h : ℕ) : ℕ := w * h * 3

/-- The sequence of complete `fsz`-byte reads obtainable from `bytes` before
the first short or empty read. -/
def fullChunks (fsz : ℕ) (bytes : List ℕ) : List (List ℕ) :=
  if h : 0 < fsz ∧ fsz ≤ bytes.length then
    bytes.take fsz :: fullChunks fsz (bytes.drop fsz)
  else []
termination_by bytes.length
decreasing_by simp only [List.length_drop]; omega

/-- The inner read loop (lines 116-127): while the stop event is unset, read
`fsz` bytes; a short or empty read breaks; a complete read is published into
the single-slot frame channel.  Returns the final slot and the publish
events, in order. -/
def innerLoop (fsz : ℕ) (stopB : ℕ → Bool) (i : ℕ) (bytes : List ℕ)
    (slot : Option (List ℕ)) : Option (List ℕ) × List Ev :=
  if stopB i then (slot, [])
  else if h : 0 < fsz ∧ fsz ≤ bytes.length then
    let r := innerLoop fsz stopB (i + 1) (bytes.drop fsz) (publish slot (bytes.take fsz))
    (r.1, Ev.publish (bytes.take fsz) :: r.2)
  else (slot, [])
termination_by bytes.length
decreasing_by simp only [List.length_drop]; omega

/-- Best-effort subprocess kill (`try: if self.process: self.process.kill()
except: pass`, lines 129-133 / 142-146 / 150-154): the kill is attempted only
when a process handle is set, and any error the kill raises is swallowed, so
`killRaises` never influences the result. -/
def bestEffortKill (procSet : Bool) (killRaises : Bool) : List Ev :=
  if procSet then [Ev.kill] else []

/-- Inputs consumed by one iteration of the outer `while` loop. -/
structure IterEnv where
  launchOk : Bool
  bytes : List ℕ
  stopB : ℕ → Bool
  stopC : Bool
  killRaises : Bool

/-- One iteration of the outer loop body (lines 106-148).  `launchOk = false`
models `ffmpeg.input(...).run_async(...)` raising, which lands in the
`except` block: best-effort kill of whatever process handle is currently set,
then an unconditional `time.sleep(2.0)` (line 148).  On the clean path the
subprocess handle is set, the inner loop runs, the process is killed
best-effort, and `time.sleep(1.0)` runs only when the stop event is unset
(lines 135-136).  Returns the frame slot, whether a process handle is set, and
the events of this iteration. -/
def oneIter (fsz : ℕ) (env : IterEnv) (slot : Option (List ℕ)) (procSet : Bool) :
    Option (List ℕ) × Bool × List Ev :=
  if env.launchOk then
    let r := innerLoop fsz env.stopB 0 env.bytes slot
    (r.1, true,
      Ev.launch :: r.2 ++ bestEffortKill true env.killRaises ++
        (if env.stopC then [] else [Ev.sleep 1]))
  else
    (slot, procSet, bestEffortKill procSet env.killRaises ++ [Ev.sleep 2])

/-- Stop check at the outer `while` guard plus the inputs of the iteration it
guards. -/
structure OuterEnv where
  stopA : Bool
  iter : IterEnv

/-- `FFmpegReader.run` (lines 102-154) over a finite schedule of iteration
environments; an exhausted schedule models the stop event being set at the
next outer guard.  After the loop the subprocess is killed best-effort one
final time (lines 150-154). -/
def runReader (fsz : ℕ) : List OuterEnv → Option (List ℕ) → Bool →
    Option (List ℕ) × Bool × List Ev
  | [], slot, procSet => (slot, procSet, bestEffortKill procSet false)
  | e :: rest, slot, procSet =>
    if e.stopA then (slot, procSet, bestEffortKill procSet false)
    else
      let r := oneIter fsz e.iter slot procSet
      let rr := runReader fsz rest r.1 r.2.1
      (rr.1, rr.2.1, r.2.2 ++ rr.2.2)

/-! ## `supervised_run` (lines 316-336)

One session run is summarised by whether it escaped with an exception and by
the value of the global `stop_supervisor` flag at the moment it ended (the
flag is written only inside the session: reset to `False` in `QRApp.__init__`,
set to `True` in `quit_app`). -/

/-- Outcome of running one session to completion. -/
structure SessionOutcome where
  raised : Bool
  flagSet : Bool
deriving DecidableEq, Repr

/-- Supervisor events: running one session, and the 2-second restart delay. -/
inductive SEv where
  | runSession : SEv
  | sleep2 : SEv
deriving DecidableEq, Repr

/-- The supervisor loop (lines 316-336): while `stop_supervisor` is false, run
a session; if the session raised, sleep 2 seconds and re-test the guard; else
if the flag is now set, break; else sleep 2 seconds and re-test the guard.  An
exhausted outcome schedule ends the trace.  `flag` is the current value of
`stop_supervisor` at the `while` guard. -/
def supervised_run (flag : Bool) (outs : List SessionOutcome) : List SEv :=
  match flag, outs with
  | true, _ => []
  | false, [] => []
  | false, o :: rest =>
    if o.raised then SEv.runSession :: SEv.sleep2 :: supervised_run o.flagSet rest
    else if o.flagSet then [SEv.runSession]
    else SEv.runSession :: SEv.sleep2 :: supervised_run o.flagSet rest

/-! ## Frame pixels and the QR-outline drawing (lines 279-303)

For the immutability claim a frame is modelled at pixel granularity: a list of
rows, each row a list of BGR pixels.  `cv2.line(frame, p1, p2, color, 3)` at
line 290 draws into `frame` in place: a thickness-3 line paints the band of
pixels whose Euclidean distance to the ideal segment from `p1` to `p2` is at
most half the thickness (the thick line's rectangle together with its round
end caps).  The band test is carried out in exact integer arithmetic on
squared distances: `q` is painted when `4 * dist(q, segment)^2 <= t^2`. -/

/-- A BGR pixel. -/
abbrev Pixel := ℕ × ℕ × ℕ

/-- Whether the integer point `q` lies in the painted band of the
thickness-`t` line from `p1` to `p2`: its distance to the segment is at most
`t / 2`, decided as `4 * dist^2 ≤ t^2`.  The distance is to the nearer
endpoint when the perpendicular foot falls outside the segment, and to the
supporting line otherwise (`dist^2 = cross^2 / len2`, compared without
division as `4 * cross^2 ≤ t^2 * len2`). -/
def onThickSegment (t : ℤ) (p1 p2 q : ℤ × ℤ) : Bool :=
  let dx := p2.1 - p1.1
  let dy := p2.2 - p1.2
  let vx := q.1 - p1.1
  let vy := q.2 - p1.2
  if vx * dx + vy * dy ≤ 0 then
    decide (4 * (vx * vx + vy * vy) ≤ t * t)
  else if dx * dx + dy * dy ≤ vx * dx + vy * dy then
    decide (4 * ((q.1 - p2.1) * (q.1 - p2.1) + (q.2 - p2.2) * (q.2 - p2.2)) ≤ t * t)
  else
    decide (4 * (dx * vy - dy * vx) * (dx * vy - dy * vx) ≤ t * t * (dx * dx + dy * dy))

/-- Overwrite the pixels of one row (at ordinate `y`, abscissae starting at
`x`) that lie in the thickness band of the segment. -/
def cvLineRow (p1 p2 : ℤ × ℤ) (color : Pixel) (t : ℤ) (y : ℤ) :
    ℤ → List Pixel → List Pixel
  | _, [] => []
  | x, px :: rest =>
    (if onThickSegment t p1 p2 (x, y) then color else px) ::
      cvLineRow p1 p2 color t y (x + 1) rest

/-- Overwrite the in-band pixels of the rows starting at ordinate `y`. -/
def cvLineRows (p1 p2 : ℤ × ℤ) (color : Pixel) (t : ℤ) :
    ℤ → List (List Pixel) → List (List Pixel)
  | _, [] => []
  | y, row :: rest =>
    cvLineRow p1 p2 color t y 0 row :: cvLineRows p1 p2 color t (y + 1) rest

/-- Model of the in-place `cv2.line(img, p1, p2, color, thickness)` call:
every pixel of `img` within half the thickness of the segment from `p1` to
`p2` is set to `color`. -/
def cvLine (img : List (List Pixel)) (p1 p2 : ℤ × ℤ) (color : Pixel) (t : ℤ) :
    List (List Pixel) :=
  cvLineRows p1 p2 color t 0 img

/-- The i-th detected corner point (`pts[i]` at lines 286-289). -/
def ptAt (pts : List (ℤ × ℤ)) (i : ℕ) : ℤ × ℤ := pts.getD i (0, 0)

/-- The drawing loop at lines 287-290: for i in 0..3, draw the segment from
`pts[i]` to `pts[(i+1)%4]` in green with thickness 3, into the frame buffer
itself. -/
def drawQrOutline (frame : List (List Pixel)) (pts : List (ℤ × ℤ)) :
    List (List Pixel) :=
  (List.range 4).foldl
    (fun fr i => cvLine fr (ptAt pts i) (ptAt pts ((i + 1) % 4)) (0, 255, 0) 3) frame

/-- The frame-buffer content after the detection block of `update_loop`
(lines 281-290): when detection returned geometry (`points is not None`) and a
non-empty payload, the outline is drawn into the frame in place; otherwise the
buffer is left as produced. -/
def processFrame (frame : List (List Pixel)) (data : String)
    (points : Option (List (ℤ × ℤ))) : List (List Pixel) :=
  match points with
  | none => frame
  | some pts => if data = "" then frame else drawQrOutline frame pts

/-- The pixel of `img` at column `x`, row `y` (out of range reads the zero
pixel). -/
def pixelAt (img : List (List Pixel)) (x y : ℕ) : Pixel :=
  (img.getD y []).getD x (0, 0, 0)

/-! ## Helper lemmas -/

lemma publish_eq {α : Type} (slot : Option α) (f : α) : publish slot f = some f := by
  cases slot <;> rfl

lemma publishAll_some {α : Type} :
    ∀ (fs : List α) (x : α), publishAll (some x) fs = some (fs.getLastD x) := by
  intro fs
  induction fs with
  | nil => intro x; rfl
  | cons f rest ih =>
    intro x
    show publishAll (publish (some x) f) rest = _
    rw [publish_eq, ih, List.getLastD_cons]

lemma reachableLog_head {c : List (List String)} (h : ReachableLog c) :
    c.head? = some csvHeader := by
  induction h with
  | created => rfl
  | appended iso txt h ih =>
    rw [List.head?_append, ih]
    rfl

/-! ## Claims about the Debounced Event Logger and the log file -/

/-- Claim C1: `maybe_save(p)` with the 5-second cooldown returns false and
appends nothing on an empty payload; otherwise it appends one record and
returns true exactly when no payload has ever been saved, or the payload
differs from the last saved one, or at least 5 seconds have passed since the
last save; on a save it sets `last_saved_text` to the payload and
`last_saved_time` to now, and in every other case it returns false, appends
nothing and leaves the state unchanged. -/
theorem c1_maybe_save_debounce (s : SaverState) (t : String) (now : ℚ) (iso : String) :
    maybe_save SAVE_COOLDOWN_SECONDS s t now iso =
      if saveDecision s t now then (true, ⟨some t, now⟩, [[iso, t]])
      else (false, s, []) := by
  unfold maybe_save saveDecision SAVE_COOLDOWN_SECONDS
  by_cases h1 : t = ""
  · simp [h1]
  · cases h2 : s.last_saved_text with
    | none => simp [h1, h2]
    | some lt =>
      by_cases h3 : lt = t
      · by_cases h4 : (5 : ℚ) ≤ now - s.last_saved_time <;>
          simp [h1, h2, h3, h4]
      · simp [h1, h2, h3, Ne.symm h3]

/-- Claim C2: the Frame Channel is a single-slot, latest-wins buffer: after
any non-empty sequence of publishes with no interleaved take, the slot holds
exactly the last published frame (so all earlier frames are unrecoverable),
one `try_take` returns that frame, and a second consecutive `try_take`
returns empty. -/
theorem c2_latest_wins {α : Type} (slot : Option α) (fs : List α) (h : fs ≠ []) :
    publishAll slot fs = some (fs.getLast h)
    ∧ (try_take (publishAll slot fs)).1 = some (fs.getLast h)
    ∧ (try_take (try_take (publishAll slot fs)).2).1 = none := by
  have key : publishAll slot fs = some (fs.getLast h) := by
    cases fs with
    | nil => exact absurd rfl h
    | cons f rest =>
      have step : publishAll slot (f :: rest) = publishAll (some f) rest := by
        show publishAll (publish slot f) rest = _
        rw [publish_eq]
      rw [step, publishAll_some, List.getLast_eq_getLastD]
  exact ⟨key, by simp [try_take, key], by simp [try_take]⟩

/-- Witness for C2 at a concrete publish sequence. -/
theorem c2_latest_wins_witness :
    publishAll (none : Option ℕ) [1, 2, 3] = some 3
    ∧ (try_take (publishAll (none : Option ℕ) [1, 2, 3])).1 = some 3
    ∧ (try_take (try_take (publishAll (none : Option ℕ) [1, 2, 3])).2).1 = none :=
  c2_latest_wins (none : Option ℕ) [1, 2, 3] (by decide)

/-- Claim C3: if the durable append inside `maybe_save` raises, the error
propagates to the caller, the in-memory debounce state is unchanged and no row
is appended (no internal retry), so a later call behaves as if the failed call
never happened; moreover the failing call errors exactly when the successful
call would have saved, and with a working append the fallible model agrees
with `maybe_save`. -/
theorem c3_append_failure (c : ℚ) (s : SaverState) (t : String) (now : ℚ) (iso : String) :
    (maybe_save_fallible c s t now iso false).2.1 = s
    ∧ (maybe_save_fallible c s t now iso false).2.2 = []
    ∧ ((maybe_save_fallible c s t now iso false).1 = Except.error ()
        ↔ (maybe_save c s t now iso).1 = true)
    ∧ maybe_save_fallible c s t now iso true =
        (Except.ok (maybe_save c s t now iso).1, (maybe_save c s t now iso).2) := by
  unfold maybe_save_fallible maybe_save
  by_cases h1 : t = ""
  · simp [h1]
  · by_cases h2 : s.last_saved_text = none ∨ ¬ (some t = s.last_saved_text) ∨
        c ≤ now - s.last_saved_time
    · simp [h1, h2]
    · simp [h1, h2]

/-- Witness for C3: a first-ever save whose append fails leaves the fresh
state untouched, appends nothing, and surfaces the error. -/
theorem c3_append_failure_witness :
    (maybe_save_fallible 5 ⟨none, 0⟩ "A" 0 "ts" false).2.1 = (⟨none, 0⟩ : SaverState)
    ∧ (maybe_save_fallible 5 ⟨none, 0⟩ "A" 0 "ts" false).2.2 = []
    ∧ (maybe_save_fallible 5 ⟨none, 0⟩ "A" 0 "ts" false).1 = Except.error () := by
  have h := c3_append_failure 5 ⟨none, 0⟩ "A" 0 "ts"
  exact ⟨h.1, h.2.1, h.2.2.1.mpr (by decide)⟩

/-- Claim C8: the ensure-log-exists operation is idempotent: on an absent file
it creates exactly the single header row; on an existing file it changes
nothing, so a second call never duplicates the header nor truncates or alters
existing rows. -/
theorem c8_header_idempotent :
    (∀ fs, ensure_csv_header (ensure_csv_header fs) = ensure_csv_header fs)
    ∧ ensure_csv_header none = some [csvHeader]
    ∧ (∀ rows, ensure_csv_header (some rows) = some rows) := by
  refine ⟨fun fs => ?_, rfl, fun rows => rfl⟩
  cases fs <;> rfl

/-- Claim C10: constructing `CaptureSaver` itself runs `ensure_csv_header`, so
immediately after construction — with `maybe_save` never called — the log file
exists; if it was absent it now contains exactly the header row, and if it was
any file previously produced by this program it is unchanged and still starts
with the header row. -/
theorem c10_init_creates_log (fs : Option (List (List String))) :
    (captureSaverInit fs).2 = ensure_csv_header fs
    ∧ ((captureSaverInit fs).2).isSome = true
    ∧ (captureSaverInit fs).1 = ⟨none, 0⟩
    ∧ (fs = none → (captureSaverInit fs).2 = some [csvHeader])
    ∧ (∀ rows, fs = some rows → ReachableLog rows →
        (captureSaverInit fs).2 = some rows ∧ rows.head? = some csvHeader) := by
  refine ⟨rfl, ?_, rfl, ?_, ?_⟩
  · cases fs <;> rfl
  · rintro rfl; rfl
  · rintro rows rfl hr
    exact ⟨rfl, reachableLog_head hr⟩

/-- Witness for C10 at the absent-file case and at a program-created file. -/
theorem c10_init_creates_log_witness :
    (captureSaverInit none).2 = some [csvHeader]
    ∧ ((captureSaverInit (some [csvHeader])).2 = some [csvHeader]
        ∧ [csvHeader].head? = some csvHeader) :=
  ⟨(c10_init_creates_log none).2.2.2.1 rfl,
   (c10_init_creates_log (some [csvHeader])).2.2.2.2 [csvHeader] rfl ReachableLog.created⟩

/-! ## Helper lemmas for the reader loop -/

lemma innerLoop_stopped (fsz : ℕ) (stopB : ℕ → Bool) (i : ℕ) (bytes : List ℕ)
    (slot : Option (List ℕ)) (hs : stopB i = true) :
    innerLoop fsz stopB i bytes slot = (slot, []) := by
  rw [innerLoop, if_pos hs]

lemma innerLoop_no_stop (fsz : ℕ) (stopB : ℕ → Bool) (hB : ∀ j, stopB j = false) :
    ∀ (bytes : List ℕ) (i : ℕ) (slot : Option (List ℕ)),
      innerLoop fsz stopB i bytes slot =
        (publishAll slot (fullChunks fsz bytes), (fullChunks fsz bytes).map Ev.publish) := by
  suffices H : ∀ (n : ℕ) (bytes : List ℕ), bytes.length ≤ n → ∀ (i : ℕ) (slot : Option (List ℕ)),
      innerLoop fsz stopB i bytes slot =
        (publishAll slot (fullChunks fsz bytes), (fullChunks fsz bytes).map Ev.publish) by
    exact fun bytes i slot => H bytes.length bytes le_rfl i slot
  intro n
  induction n with
  | zero =>
    intro bytes hlen i slot
    have h : ¬ (0 < fsz ∧ fsz ≤ bytes.length) := by omega
    rw [innerLoop, if_neg (by simp [hB]), dif_neg h, fullChunks, dif_neg h]
    rfl
  | succ n ih =>
    intro bytes hlen i slot
    by_cases h : 0 < fsz ∧ fsz ≤ bytes.length
    · have hdrop : (bytes.drop fsz).length ≤ n := by
        rw [List.length_drop]; omega
      rw [innerLoop, if_neg (by simp [hB]), dif_pos h, fullChunks, dif_pos h]
      simp only [ih (bytes.drop fsz) hdrop (i + 1) (publish slot (bytes.take fsz)),
        List.map_cons]
      rfl
    · rw [innerLoop, if_neg (by simp [hB]), dif_neg h, fullChunks, dif_neg h]
      rfl

lemma fullChunks_length (fsz : ℕ) (hf : 0 < fsz) :
    ∀ bytes : List ℕ, (fullChunks fsz bytes).length = bytes.length / fsz := by
  suffices H : ∀ (n : ℕ) (bytes : List ℕ), bytes.length ≤ n →
      (fullChunks fsz bytes).length = bytes.length / fsz by
    exact fun bytes => H bytes.length bytes le_rfl
  intro n
  induction n with
  | zero =>
    intro bytes hlen
    have h : ¬ (0 < fsz ∧ fsz ≤ bytes.length) := by omega
    have hz : bytes.length = 0 := by omega
    rw [fullChunks, dif_neg h, hz]
    simp
  | succ n ih =>
    intro bytes hlen
    by_cases h : 0 < fsz ∧ fsz ≤ bytes.length
    · have hdrop : (bytes.drop fsz).length ≤ n := by
        rw [List.length_drop]; omega
      rw [fullChunks, dif_pos h, List.length_cons, ih (bytes.drop fsz) hdrop,
        List.length_drop, Nat.div_eq_sub_div hf h.2]
    · have hlt : bytes.length < fsz := by omega
      rw [fullChunks, dif_neg h, Nat.div_eq_of_lt hlt]
      rfl

lemma fullChunks_mem_length (fsz : ℕ) :
    ∀ (bytes : List ℕ) (c : List ℕ), c ∈ fullChunks fsz bytes → c.length = fsz := by
  suffices H : ∀ (n : ℕ) (bytes : List ℕ), bytes.length ≤ n → ∀ c ∈ fullChunks fsz bytes,
      c.length = fsz by
    exact fun bytes => H bytes.length bytes le_rfl
  intro n
  induction n with
  | zero =>
    intro bytes hlen c hc
    have h : ¬ (0 < fsz ∧ fsz ≤ bytes.length) := by omega
    rw [fullChunks, dif_neg h] at hc
    simp at hc
  | succ n ih =>
    intro bytes hlen c hc
    by_cases h : 0 < fsz ∧ fsz ≤ bytes.length
    · rw [fullChunks, dif_pos h] at hc
      rcases List.mem_cons.mp hc with rfl | hc
      · rw [List.length_take]; omega
      · exact ih (bytes.drop fsz) (by rw [List.length_drop]; omega) c hc
    · rw [fullChunks, dif_neg h] at hc
      simp at hc

lemma innerLoop_events_publish (fsz : ℕ) (stopB : ℕ → Bool) :
    ∀ (bytes : List ℕ) (i : ℕ) (slot : Option (List ℕ)) (e : Ev),
      e ∈ (innerLoop fsz stopB i bytes slot).2 → ∃ raw, e = Ev.publish raw := by
  suffices H : ∀ (n : ℕ) (bytes : List ℕ), bytes.length ≤ n →
      ∀ (i : ℕ) (slot : Option (List ℕ)) (e : Ev),
      e ∈ (innerLoop fsz stopB i bytes slot).2 → ∃ raw, e = Ev.publish raw by
    exact fun bytes => H bytes.length bytes le_rfl
  intro n
  induction n with
  | zero =>
    intro bytes hlen i slot e he
    have h : ¬ (0 < fsz ∧ fsz ≤ bytes.length) := by omega
    cases hs : stopB i with
    | true => rw [innerLoop, if_pos hs] at he; simp at he
    | false => rw [innerLoop, if_neg (by simp [hs]), dif_neg h] at he; simp at he
  | succ n ih =>
    intro bytes hlen i slot e he
    cases hs : stopB i with
    | true => rw [innerLoop, if_pos hs] at he; simp at he
    | false =>
      by_cases h : 0 < fsz ∧ fsz ≤ bytes.length
      · rw [innerLoop, if_neg (by simp [hs]), dif_pos h] at he
        simp only [List.mem_cons] at he
        rcases he with rfl | he
        · exact ⟨bytes.take fsz, rfl⟩
        · exact ih (bytes.drop fsz) (by rw [List.length_drop]; omega) (i + 1)
            (publish slot (bytes.take fsz)) e he
      · rw [innerLoop, if_neg (by simp [hs]), dif_neg h] at he
        simp at he

lemma supervised_run_true (outs : List SessionOutcome) : supervised_run true outs = [] := by
  cases outs <;> rfl

/-! ## Claims about the Stream Ingestion Worker and the Supervisor -/

/-- Claim C4: in the streaming state every read requests exactly
`width * height * 3` bytes; every complete read publishes exactly one frame
into the channel (so the number of publishes is the byte count divided by the
frame size, and every published chunk has exactly frame size length); the
first short or empty read ends the loop, after which the subprocess is killed
(kill errors swallowed, as the result is independent of `killRaises`) and the
worker proceeds to its cooldown wait. -/
theorem c4_streaming_reads (w h : ℕ) (bytes : List ℕ) (slot : Option (List ℕ))
    (p k : Bool) (hw : 0 < w) (hh : 0 < h) :
    oneIter (frame_size w h) ⟨true, bytes, fun _ => false, false, k⟩ slot p
      = (publishAll slot (fullChunks (frame_size w h) bytes), true,
         Ev.launch :: (fullChunks (frame_size w h) bytes).map Ev.publish
           ++ [Ev.kill, Ev.sleep 1])
    ∧ (fullChunks (frame_size w h) bytes).length = bytes.length / frame_size w h
    ∧ (∀ c ∈ fullChunks (frame_size w h) bytes, c.length = frame_size w h) := by
  have hf : 0 < frame_size w h := by
    unfold frame_size
    exact Nat.mul_pos (Nat.mul_pos hw hh) (by norm_num)
  refine ⟨?_, fullChunks_length _ hf bytes, fun c hc => fullChunks_mem_length _ bytes c hc⟩
  rw [oneIter]
  simp [innerLoop_no_stop (frame_size w h) (fun _ => false) (fun j => rfl) bytes 0 slot,
    bestEffortKill]

/-- Witness for C4 at a 1×1 frame (frame size 3) and a 7-byte stream: two
complete reads, then a short read. -/
theorem c4_streaming_reads_witness :
    oneIter (frame_size 1 1) ⟨true, [0, 1, 2, 3, 4, 5, 6], fun _ => false, false, false⟩
        none false
      = (publishAll none (fullChunks (frame_size 1 1) [0, 1, 2, 3, 4, 5, 6]), true,
         Ev.launch :: (fullChunks (frame_size 1 1) [0, 1, 2, 3, 4, 5, 6]).map Ev.publish
           ++ [Ev.kill, Ev.sleep 1])
    ∧ (fullChunks (frame_size 1 1) [0, 1, 2, 3, 4, 5, 6]).length
        = [0, 1, 2, 3, 4, 5, 6].length / frame_size 1 1
    ∧ (∀ c ∈ fullChunks (frame_size 1 1) [0, 1, 2, 3, 4, 5, 6], c.length = frame_size 1 1) :=
  c4_streaming_reads 1 1 [0, 1, 2, 3, 4, 5, 6] none false false (by decide) (by decide)

/-- Counterexample to claim C5 as stated: with shutdown requested at every
stop-event check, an iteration whose setup raised still performs the full
2-second cooldown wait (`time.sleep(2.0)` at line 148 is unconditional), so
the exception-path wait is neither skipped nor abandoned on shutdown. -/
theorem c5_cooldown_counterexample :
    (oneIter 3 ⟨false, [], fun _ => true, true, false⟩ none false).2.2 = [Ev.sleep 2] := rfl

/-- Claim C5 as amended: after a clean stream end the worker waits exactly
1 second, and that wait is skipped entirely when shutdown was requested before
it begins (no sleep event at all); after an exception during setup/read the
worker waits exactly 2 seconds unconditionally, even when shutdown has already
been requested. -/
theorem c5_cooldown_amended (fsz : ℕ) (env : IterEnv) (slot : Option (List ℕ)) (p : Bool) :
    (env.launchOk = true → env.stopC = true →
      ∀ q, Ev.sleep q ∉ (oneIter fsz env slot p).2.2)
    ∧ (env.launchOk = true → env.stopC = false →
        (oneIter fsz env slot p).2.2.getLast? = some (Ev.sleep 1))
    ∧ (env.launchOk = false →
        (oneIter fsz env slot p).2.2 = bestEffortKill p env.killRaises ++ [Ev.sleep 2]) := by
  refine ⟨?_, ?_, ?_⟩
  · intro h1 h2 q hq
    rw [oneIter, if_pos h1] at hq
    simp only [h2, if_true, bestEffortKill, List.append_nil, List.mem_cons,
      List.mem_append, List.mem_singleton] at hq
    rcases hq with (hq | hq) | hq
    · exact Ev.noConfusion hq
    · obtain ⟨raw, hraw⟩ := innerLoop_events_publish fsz env.stopB env.bytes 0 slot _ hq
      exact Ev.noConfusion hraw
    · rcases hq with hq | hq
      · exact Ev.noConfusion hq
      · simp at hq
  · intro h1 h2
    rw [oneIter, if_pos h1]
    simp only [h2, Bool.false_eq_true, if_false, bestEffortKill, if_true]
    rw [show Ev.launch :: (innerLoop fsz env.stopB 0 env.bytes slot).2
          ++ [Ev.kill] ++ [Ev.sleep 1]
        = (Ev.launch :: (innerLoop fsz env.stopB 0 env.bytes slot).2 ++ [Ev.kill])
          ++ [Ev.sleep 1] by simp]
    exact List.getLast?_concat _
  · intro h1
    rw [oneIter, if_neg (by simp [h1])]

/-- Witness for C5 (amended) on concrete iteration environments covering the
three cases. -/
theorem c5_cooldown_amended_witness :
    Ev.sleep 1 ∉ (oneIter 3 ⟨true, [], fun _ => false, true, false⟩ none false).2.2
    ∧ (oneIter 3 ⟨true, [], fun _ => false, false, false⟩ none false).2.2.getLast?
        = some (Ev.sleep 1)
    ∧ (oneIter 3 ⟨false, [], fun _ => false, false, true⟩ none true).2.2
        = bestEffortKill true true ++ [Ev.sleep 2] :=
  ⟨(c5_cooldown_amended 3 ⟨true, [], fun _ => false, true, false⟩ none false).1 rfl rfl 1,
   (c5_cooldown_amended 3 ⟨true, [], fun _ => false, false, false⟩ none false).2.1 rfl rfl,
   (c5_cooldown_amended 3 ⟨false, [], fun _ => false, false, true⟩ none true).2.2 rfl⟩

/-- Claim C6: once the stop signal is set at the outer loop guard, the worker
launches no further subprocess and its run terminates with only a best-effort
kill of any current subprocess; if the stop signal is set throughout an
already-started iteration, that iteration performs no read, no publish and no
cooldown sleep — only the best-effort kill; and kill errors are swallowed
(the kill step's result never depends on whether the kill raised). -/
theorem c6_shutdown_wins (fsz : ℕ) (e : OuterEnv) (rest : List OuterEnv)
    (slot : Option (List ℕ)) (p : Bool) (env : IterEnv) (slot2 : Option (List ℕ))
    (p2 : Bool) (hA : e.stopA = true) (h1 : env.launchOk = true)
    (h2 : env.stopB 0 = true) (h3 : env.stopC = true) :
    runReader fsz (e :: rest) slot p = (slot, p, bestEffortKill p false)
    ∧ oneIter fsz env slot2 p2 = (slot2, true, [Ev.launch, Ev.kill])
    ∧ (∀ q b1 b2, bestEffortKill q b1 = bestEffortKill q b2) := by
  refine ⟨?_, ?_, fun q b1 b2 => rfl⟩
  · show (if e.stopA then _ else _) = _
    rw [if_pos hA]
  · rw [oneIter, if_pos h1, innerLoop_stopped fsz env.stopB 0 env.bytes slot2 h2]
    simp [h3, bestEffortKill]

/-- Witness for C6 on a concrete stopped schedule. -/
theorem c6_shutdown_wins_witness :
    runReader 3 [⟨true, ⟨true, [9, 9, 9], fun _ => true, true, false⟩⟩] none true
      = (none, true, bestEffortKill true false)
    ∧ oneIter 3 ⟨true, [5, 6, 7], fun _ => true, true, false⟩ none false
      = (none, true, [Ev.launch, Ev.kill])
    ∧ (∀ q b1 b2, bestEffortKill q b1 = bestEffortKill q b2) :=
  c6_shutdown_wins 3 ⟨true, ⟨true, [9, 9, 9], fun _ => true, true, false⟩⟩ [] none true
    ⟨true, [5, 6, 7], fun _ => true, true, false⟩ none false rfl rfl rfl rfl

/-- Claim C7: the supervisor runs sessions while `stop_supervisor` is false:
when the flag is set at the loop guard no session is run; after any session
run ending with the flag still false — whether it returned or raised — the
supervisor sleeps 2 seconds and runs another session; it breaks exactly when
the flag is true (immediately after a normal session end, or after the
exception path's 2-second sleep followed by the loop guard), and never exits
by any other path. -/
theorem c7_supervisor_loop (o : SessionOutcome) (rest outs : List SessionOutcome) :
    supervised_run true outs = []
    ∧ (o.flagSet = false →
        supervised_run false (o :: rest) =
          SEv.runSession :: SEv.sleep2 :: supervised_run false rest)
    ∧ (o.flagSet = true → o.raised = false →
        supervised_run false (o :: rest) = [SEv.runSession])
    ∧ (o.flagSet = true → o.raised = true →
        supervised_run false (o :: rest) = [SEv.runSession, SEv.sleep2]) := by
  refine ⟨supervised_run_true outs, ?_, ?_, ?_⟩
  · intro hf
    cases hr : o.raised <;> simp [supervised_run, hr, hf]
  · intro hf hr
    simp [supervised_run, hf, hr]
  · intro hf hr
    simp [supervised_run, hf, hr, supervised_run_true]

/-- Witness for C7 on concrete session outcomes covering all four cases. -/
theorem c7_supervisor_loop_witness :
    supervised_run true [] = []
    ∧ supervised_run false [⟨true, false⟩] =
        SEv.runSession :: SEv.sleep2 :: supervised_run false []
    ∧ supervised_run false [⟨false, true⟩] = [SEv.runSession]
    ∧ supervised_run false [⟨true, true⟩] = [SEv.runSession, SEv.sleep2] :=
  ⟨(c7_supervisor_loop ⟨true, false⟩ [] []).1,
   (c7_supervisor_loop ⟨true, false⟩ [] []).2.1 rfl,
   (c7_supervisor_loop ⟨false, true⟩ [] []).2.2.1 rfl rfl,
   (c7_supervisor_loop ⟨true, true⟩ [] []).2.2.2 rfl rfl⟩

/-! ## Helper lemmas for the pixel model -/

lemma cvLineRow_getD (p1 p2 : ℤ × ℤ) (c : Pixel) (t y : ℤ) :
    ∀ (row : List Pixel) (x0 : ℤ) (n : ℕ) (d : Pixel),
      onThickSegment t p1 p2 (x0 + (n : ℤ), y) = false →
      (cvLineRow p1 p2 c t y x0 row).getD n d = row.getD n d := by
  intro row
  induction row with
  | nil => intro x0 n d hn; rfl
  | cons px rest ih =>
    intro x0 n d hn
    cases n with
    | zero =>
      have h0 : onThickSegment t p1 p2 (x0, y) = false := by simpa using hn
      simp [cvLineRow, h0]
    | succ m =>
      simp only [cvLineRow, List.getD_cons_succ]
      apply ih (x0 + 1) m d
      rw [show x0 + 1 + (m : ℤ) = x0 + ((m + 1 : ℕ) : ℤ) by push_cast; ring]
      exact hn

lemma cvLineRows_getD (p1 p2 : ℤ × ℤ) (c : Pixel) (t : ℤ) :
    ∀ (img : List (List Pixel)) (y0 : ℤ) (m n : ℕ) (d : Pixel),
      onThickSegment t p1 p2 ((n : ℤ), y0 + (m : ℤ)) = false →
      ((cvLineRows p1 p2 c t y0 img).getD m []).getD n d = (img.getD m []).getD n d := by
  intro img
  induction img with
  | nil => intro y0 m n d hn; rfl
  | cons row rest ih =>
    intro y0 m n d hn
    cases m with
    | zero =>
      simp only [cvLineRows, List.getD_cons_zero]
      have h0 : onThickSegment t p1 p2 (0 + (n : ℤ), y0) = false := by
        rw [show (0 : ℤ) + (n : ℤ) = (n : ℤ) by ring]
        simpa using hn
      exact cvLineRow_getD p1 p2 c t y0 row 0 n d h0
    | succ m' =>
      simp only [cvLineRows, List.getD_cons_succ]
      apply ih (y0 + 1) m' n d
      rw [show y0 + 1 + (m' : ℤ) = y0 + ((m' + 1 : ℕ) : ℤ) by push_cast; ring]
      exact hn

lemma pixelAt_cvLine (img : List (List Pixel)) (p1 p2 : ℤ × ℤ) (c : Pixel) (t : ℤ)
    (x y : ℕ) (hseg : onThickSegment t p1 p2 ((x : ℤ), (y : ℤ)) = false) :
    pixelAt (cvLine img p1 p2 c t) x y = pixelAt img x y := by
  unfold pixelAt cvLine
  apply cvLineRows_getD p1 p2 c t img 0 y x
  rw [show (0 : ℤ) + (y : ℤ) = (y : ℤ) by ring]
  exact hseg

lemma pixelAt_drawQrOutline (pts : List (ℤ × ℤ)) (x y : ℕ)
    (hseg : ∀ i < 4,
      onThickSegment 3 (ptAt pts i) (ptAt pts ((i + 1) % 4)) ((x : ℤ), (y : ℤ)) = false) :
    ∀ frame, pixelAt (drawQrOutline frame pts) x y = pixelAt frame x y := by
  unfold drawQrOutline
  have key : ∀ (l : List ℕ) (frame : List (List Pixel)),
      (∀ i ∈ l,
        onThickSegment 3 (ptAt pts i) (ptAt pts ((i + 1) % 4)) ((x : ℤ), (y : ℤ)) = false) →
      pixelAt (l.foldl
        (fun fr i => cvLine fr (ptAt pts i) (ptAt pts ((i + 1) % 4)) (0, 255, 0) 3) frame) x y
        = pixelAt frame x y := by
    intro l
    induction l with
    | nil => intro frame _; rfl
    | cons a t ih =>
      intro frame hl
      simp only [List.foldl_cons]
      rw [ih _ (fun i hi => hl i (List.mem_cons_of_mem a hi)),
        pixelAt_cvLine _ _ _ _ _ _ _ (hl a (List.mem_cons_self a t))]
  intro frame
  exact key (List.range 4) frame (fun i hi => hseg i (List.mem_range.mp hi))

/-! ## Claim C9 -/

/-- Counterexample to claim C9 as stated: the frame buffer is not immutable
after production.  On a 2×2 black frame with a detected payload and corner
points, the consumer's drawing step (`cv2.line(frame, ...)` at line 290)
writes the green outline into the very frame buffer, so the buffer's pixel
contents change after publication and take. -/
theorem c9_frame_mutated :
    processFrame [[(0, 0, 0), (0, 0, 0)], [(0, 0, 0), (0, 0, 0)]] "X"
        (some [(0, 0), (1, 0), (1, 1), (0, 1)])
      ≠ [[(0, 0, 0), (0, 0, 0)], [(0, 0, 0), (0, 0, 0)]] := by decide

/-- Claim C9 as amended: publication and take hand the frame over unmodified,
and the consumer leaves the buffer unchanged when detection returns no
geometry or an empty payload; when a payload with geometry is detected, the
mutation is confined to the drawn thickness-3 outline — every pixel farther
than half the thickness from all four outline segments keeps its original
value. -/
theorem c9_frame_immutable_amended (frame : List (List Pixel)) (data : String)
    (pts : List (ℤ × ℤ)) (x y : ℕ) {α : Type} (slot : Option α) (f : α) :
    processFrame frame data none = frame
    ∧ (data = "" → processFrame frame data (some pts) = frame)
    ∧ ((∀ i < 4,
          onThickSegment 3 (ptAt pts i) (ptAt pts ((i + 1) % 4)) ((x : ℤ), (y : ℤ)) = false) →
        pixelAt (processFrame frame data (some pts)) x y = pixelAt frame x y)
    ∧ (try_take (publish slot f)).1 = some f := by
  refine ⟨rfl, ?_, ?_, ?_⟩
  · intro hd
    simp [processFrame, hd]
  · intro hseg
    by_cases hd : data = ""
    · simp [processFrame, hd]
    · simp only [processFrame, if_neg hd]
      exact pixelAt_drawQrOutline pts x y hseg frame
  · rw [publish_eq]
    rfl

/-- Witness for C9 (amended): a pixel away from the thickness-3 band of the
outline is untouched, and an empty payload leaves the frame untouched. -/
theorem c9_frame_immutable_amended_witness :
    processFrame [[(0, 0, 0), (0, 0, 0)], [(0, 0, 0), (0, 0, 0)]] ""
        (some [(0, 0), (1, 0), (1, 1), (0, 1)])
      = [[(0, 0, 0), (0, 0, 0)], [(0, 0, 0), (0, 0, 0)]]
    ∧ pixelAt (processFrame [[(0, 0, 0), (0, 0, 0)], [(0, 0, 0), (0, 0, 0)]] "X"
        (some [(0, 0), (1, 0), (1, 1), (0, 1)])) 5 5
      = pixelAt [[(0, 0, 0), (0, 0, 0)], [(0, 0, 0), (0, 0, 0)]] 5 5 :=
  ⟨(c9_frame_immutable_amended [[(0, 0, 0), (0, 0, 0)], [(0, 0, 0), (0, 0, 0)]] ""
      [(0, 0), (1, 0), (1, 1), (0, 1)] 5 5 (none : Option ℕ) 7).2.1 rfl,
   (c9_frame_immutable_amended [[(0, 0, 0), (0, 0, 0)], [(0, 0, 0), (0, 0, 0)]] "X"
      [(0, 0), (1, 0), (1, 1), (0, 1)] 5 5 (none : Option ℕ) 7).2.2.1 (by decide)⟩
